import Mathlib

/-!
Shallow embedding of the messaging core of `SupervisorMessages.tsx`
(threads, message-stream cache with authoritative merge, poll voting,
read receipts, block list, recipient search), together with theorems
settling the specification claims about it.

Identifiers are kept close to the source: `fetchMessages`, `fetchThreads`,
`handleVote`, `handleSendMessage`, `handleStartConversation`,
`performSearch`, `addBlockedUser`.  Timestamps are modelled as naturals,
row ids as strings, and the remote store as explicit lists of rows.
-/

namespace Tilda

/-- Sort descending by a natural-number key.  Models both the store's
`order('created_at', { ascending: false })` and the JS comparator
`(a, b) => timeB - timeA`. -/
def sortDescBy (key : α → Nat) (l : List α) : List α :=
  l.insertionSort (fun a b => key b ≤ key a)

/-- Sort ascending by a natural-number key (models `.order('position')`
and `(a, b) => a.position - b.position`). -/
def sortAscBy (key : α → Nat) (l : List α) : List α :=
  l.insertionSort (fun a b => key a ≤ key b)

/-- JS `String.prototype.trim()`: strip leading and trailing whitespace
(modelled at the character-list level so that it evaluates). -/
def jsTrim (s : String) : String :=
  ⟨((s.toList.dropWhile Char.isWhitespace).reverse.dropWhile Char.isWhitespace).reverse⟩

/-- A poll option as assembled by `fetchMessages` (label, position,
vote count, and whether the current user voted for it). -/
structure PollOption where
  id : String
  label : String
  position : Nat
  votes : Nat
  selected : Bool
deriving DecidableEq, Repr

/-- A poll as displayed on a message. -/
structure Poll where
  id : String
  question : String
  multiple_choice : Bool
  options : List PollOption
deriving DecidableEq, Repr

/-- A message of the client-side message-stream cache. -/
structure Message where
  id : String
  content : String
  created_at : Nat
  sender_id : String
  attachments : List String
  poll : Option Poll
  readBy : List String
deriving DecidableEq, Repr

/-- Row of `msg_thread_messages`. -/
structure MsgRow where
  id : String
  thread_id : String
  sender_id : String
  body : String
  created_at : Nat
  attachments : List String
deriving DecidableEq, Repr

/-- Row of `msg_polls`. -/
structure PollRow where
  id : String
  message_id : String
  question : String
  multiple_choice : Bool
deriving DecidableEq, Repr

/-- Row of `msg_poll_options`. -/
structure OptionRow where
  id : String
  poll_id : String
  label : String
  position : Nat
deriving DecidableEq, Repr

/-- Row of `msg_poll_votes`. -/
structure VoteRow where
  poll_id : String
  option_id : String
  voter_id : String
deriving DecidableEq, Repr

/-- Row of `msg_thread_reads`. -/
structure ReadRow where
  thread_id : String
  user_id : String
  last_read_message_id : String
  read_at : Nat
deriving DecidableEq, Repr

/-- Row of `msg_thread_blocked`. -/
structure BlockRow where
  blocked_by : String
  blocked_user_id : String
deriving DecidableEq, Repr

/-- Row of `msg_thread_participants`, embedded into its thread. -/
structure PartRow where
  user_id : String
  status : Option String
deriving DecidableEq, Repr

/-- Row of `msg_threads` with its participants embedded. -/
structure ThreadRow where
  id : String
  created_at : Nat
  is_group : Bool
  is_predefined : Bool
  active : Bool
  title : Option String
  supervisor_id : String
  participants : List PartRow
deriving DecidableEq, Repr

/-- The authoritative remote store (the tables the messaging core touches). -/
structure Store where
  threads : List ThreadRow
  messages : List MsgRow
  polls : List PollRow
  options : List OptionRow
  votes : List VoteRow
  reads : List ReadRow
  blocked : List BlockRow
deriving DecidableEq, Repr

/-! ### The authoritative merge of `fetchMessages` (`setMessages(prev => ...)`) -/

/-- One entry of the merge: look up the cached entry with the same id and,
when the fresh payload has no poll, empty body and no attachments but the
cached entry carries a poll, keep the cached poll. -/
def mergeOne (prev : List Message) (n : Message) : Message :=
  match prev.find? (fun p => p.id == n.id) with
  | some e =>
    if n.poll.isNone && e.poll.isSome && n.content == "" && n.attachments.isEmpty then
      { n with poll := e.poll }
    else n
  | none => n

/-- The merge of the freshly formatted authoritative list into the cached
list: `formatted.map` over the preservation rule. -/
def mergeMessages (prev fresh : List Message) : List Message :=
  fresh.map (mergeOne prev)

/-! ### `fetchMessages` -/

/-- Step 1 of `fetchMessages`: the raw messages of the thread, descending
by creation time (`.eq('thread_id', threadId).order('created_at', { ascending: false })`). -/
def msgsOf (s : Store) (threadId : String) : List MsgRow :=
  sortDescBy (fun m => m.created_at) (s.messages.filter (fun m => m.thread_id == threadId))

/-- Poll resolution for one message id: `msg_polls` row via `maybeSingle`,
its options ordered by position, its votes, assembled into a `Poll` with
per-option counts and the current user's `selected` flags, re-sorted by
position. -/
def pollFor (s : Store) (me messageId : String) : Option Poll :=
  match s.polls.find? (fun p => p.message_id == messageId) with
  | none => none
  | some pollRow =>
    let options := sortAscBy (fun o => o.position) (s.options.filter (fun o => o.poll_id == pollRow.id))
    let votes := s.votes.filter (fun v => v.poll_id == pollRow.id)
    some
      { id := pollRow.id
        question := pollRow.question
        multiple_choice := pollRow.multiple_choice
        options := sortAscBy (fun o => o.position) (options.map (fun o =>
          let relevantVotes := votes.filter (fun v => v.option_id == o.id)
          { id := o.id
            label := o.label
            position := o.position
            votes := relevantVotes.length
            selected := relevantVotes.any (fun v => v.voter_id == me) })) }

/-- The `readBy` derivation of `fetchMessages`: a receipt other than the
caller's own counts when both its cursor message and the current message
occur in the filtered descending list and the current message's index is
the same or larger (i.e. the same or older). -/
def readByOf (filteredMsgs : List MsgRow) (readReceipts : List ReadRow) (me : String)
    (m : MsgRow) : List String :=
  (readReceipts.filter (fun r =>
    if r.user_id == me then false
    else
      match filteredMsgs.findIdx? (fun msg => msg.id == r.last_read_message_id),
            filteredMsgs.findIdx? (fun msg => msg.id == m.id) with
      | some receiptMsgIndex, some currentMsgIndex => receiptMsgIndex ≤ currentMsgIndex
      | _, _ => false)).map (fun r => r.user_id)

/-- One formatted entry of the authoritative list. -/
def formatOne (filteredMsgs : List MsgRow) (readReceipts : List ReadRow) (me : String)
    (poll : Option Poll) (m : MsgRow) : Message :=
  { id := m.id
    content := m.body
    created_at := m.created_at
    sender_id := m.sender_id
    attachments := m.attachments
    poll := poll
    readBy := readByOf filteredMsgs readReceipts me m }

/-- The freshly formatted authoritative list of `fetchMessages`:
blocked senders dropped (own messages kept), polls and `readBy` attached. -/
def formatMessages (s : Store) (threadId me : String) (blockedUserIds : List String) :
    List Message :=
  let msgs := msgsOf s threadId
  let readReceipts := s.reads.filter (fun r => r.thread_id == threadId)
  let filteredMsgs := msgs.filter (fun m =>
    m.sender_id == me || !(blockedUserIds.contains m.sender_id))
  filteredMsgs.map (fun m => formatOne filteredMsgs readReceipts me (pollFor s me m.id) m)

/-- The read-cursor upsert (`onConflict: 'thread_id, user_id'`): update the
existing row for the key if present, else insert. -/
def upsertRead (reads : List ReadRow) (r : ReadRow) : List ReadRow :=
  if reads.any (fun x => x.thread_id == r.thread_id && x.user_id == r.user_id) then
    reads.map (fun x =>
      if x.thread_id == r.thread_id && x.user_id == r.user_id then r else x)
  else reads ++ [r]

/-- Whether the initial authoritative fetch of `fetchMessages` succeeds or
throws (`if (error) throw error`); every later store read in the function
ignores its error. -/
inductive FetchOutcome where
  | ok : FetchOutcome
  | fail (e : String) : FetchOutcome
deriving DecidableEq, Repr

/-- Result of one run of `fetchMessages`: the new cache, the store after the
run's own read-cursor advance, what (if anything) was propagated to the
caller, and what was merely logged by the `catch` block. -/
structure LoadResult where
  cache : List Message
  store : Store
  erroredToCaller : Option String
  loggedError : Option String
deriving DecidableEq, Repr

/-- `fetchMessages(threadId)`.  On a failed fetch the `catch` block only
logs (`console.error`) and the function resolves normally, leaving the cache
untouched.  On success the formatted list is merged into the previous cache
and the caller's read cursor is upserted to the newest (unfiltered) message. -/
def fetchMessages (s : Store) (threadId me : String) (blockedUserIds : List String)
    (prev : List Message) (now : Nat) (outcome : FetchOutcome) : LoadResult :=
  match outcome with
  | .fail e =>
    { cache := prev, store := s, erroredToCaller := none, loggedError := some e }
  | .ok =>
    let msgs := msgsOf s threadId
    let formatted := formatMessages s threadId me blockedUserIds
    let s' :=
      match msgs with
      | [] => s
      | latestMsg :: _ =>
        let cursor : ReadRow :=
          { thread_id := threadId, user_id := me
            last_read_message_id := latestMsg.id, read_at := now }
        { s with reads := upsertRead s.reads cursor }
    { cache := mergeMessages prev formatted
      store := s'
      erroredToCaller := none
      loggedError := none }

/-! ### `fetchThreads` -/

/-- The preview of a thread's newest message. -/
structure LastMsg where
  content : String
  created_at : Nat
  sender_id : String
deriving DecidableEq, Repr

/-- A thread summary as held in the `threads` client state. -/
structure ThreadSummary where
  id : String
  title : Option String
  updated_at : Nat
  participants : List PartRow
  is_group : Bool
  last_message : Option LastMsg
deriving DecidableEq, Repr

/-- The actor's block list as loaded from `msg_thread_blocked`
(`eq('blocked_by', me)`, mapped to the blocked user ids). -/
def blockedIdsOf (s : Store) (me : String) : List String :=
  (s.blocked.filter (fun b => b.blocked_by == me)).map (fun b => b.blocked_user_id)

/-- The first drop of `fetchThreads`: `t.is_predefined === true && t.active === false`. -/
def isDisabledPredefined (t : ThreadRow) : Bool :=
  t.is_predefined == true && t.active == false

/-- The second drop of `fetchThreads`: keep only threads where the actor
is a listed participant. -/
def hasActorParticipant (me : String) (t : ThreadRow) : Bool :=
  t.participants.any (fun p => p.user_id == me)

/-- The third drop of `fetchThreads`: keep group threads, and keep a
non-group thread unless its (first) other participant is blocked. -/
def keepUnblockedDirect (me : String) (blockedIds : List String) (t : ThreadRow) : Bool :=
  if t.is_group then true
  else
    match t.participants.find? (fun p => !(p.user_id == me)) with
    | none => true
    | some other => !(blockedIds.contains other.user_id)

/-- Assembly of one thread summary: `updated_at` is the newest message's
time, else the thread's creation time; the newest message is attached as
preview. -/
def mkThreadSummary (lastMessageMap : String → Option MsgRow) (t : ThreadRow) :
    ThreadSummary :=
  { id := t.id
    title := t.title
    updated_at :=
      match lastMessageMap t.id with
      | some lastMsg => lastMsg.created_at
      | none => t.created_at
    participants := t.participants
    is_group := t.is_group
    last_message := (lastMessageMap t.id).map (fun m =>
      { content := m.body, created_at := m.created_at, sender_id := m.sender_id }) }

/-- `fetchThreads`, after the actor has been resolved to `me`/`supId`:
threads of the supervisor scope ordered by creation time descending,
disabled predefined groups dropped, threads without the actor as
participant dropped, one batch fetch of newest messages, direct threads
with a blocked other participant dropped, summaries assembled and sorted
descending by `updated_at`. -/
def fetchThreads (s : Store) (me supId : String) : List ThreadSummary :=
  let currentBlockedIds := blockedIdsOf s me
  let threadsData := sortDescBy (fun t => t.created_at)
    (s.threads.filter (fun t => t.supervisor_id == supId))
  let validThreads₁ := threadsData.filter (fun t => !(isDisabledPredefined t))
  let validThreads := validThreads₁.filter (hasActorParticipant me)
  let threadIds := validThreads.map (fun t => t.id)
  if threadIds.isEmpty then []
  else
    let allMessages := sortDescBy (fun m => m.created_at)
      (s.messages.filter (fun m => threadIds.contains m.thread_id))
    let lastMessageMap := fun tid => allMessages.find? (fun m => m.thread_id == tid)
    let finalThreads :=
      (validThreads.filter (keepUnblockedDirect me currentBlockedIds)).map
        (mkThreadSummary lastMessageMap)
    sortDescBy (fun t => t.updated_at) finalThreads

/-! ### `handleVote` — the authoritative writes -/

/-- The remote mutation sequence of `handleVote` applied to the
`msg_poll_votes` table: if the option was already selected by the voter,
delete that voter's rows for the option; otherwise, for a single-choice
poll first delete all of the voter's rows for the poll, then (in both
choice modes) insert the new vote row. -/
def handleVote (votes : List VoteRow) (pollId optionId me : String)
    (currentSelected multiple : Bool) : List VoteRow :=
  if currentSelected then
    votes.filter (fun v =>
      !(v.poll_id == pollId && v.option_id == optionId && v.voter_id == me))
  else
    let afterDelete :=
      if !multiple then
        votes.filter (fun v => !(v.poll_id == pollId && v.voter_id == me))
      else votes
    afterDelete ++ [{ poll_id := pollId, option_id := optionId, voter_id := me }]

/-! ### `handleSendMessage` -/

/-- Resolution of the remote insert of `handleSendMessage`. -/
inductive SendOutcome where
  | ok (realId : String) (realCreated : Nat) : SendOutcome
  | fail : SendOutcome
deriving DecidableEq, Repr

/-- Result of one run of `handleSendMessage`: the cache right after the
optimistic insert (before the remote insert resolves), the final cache,
the final thread list and composer text, whether a remote insert was
issued at all, and whether an alert was shown. -/
structure SendResult where
  messagesMid : List Message
  messages : List Message
  threads : List ThreadSummary
  composer : String
  remoteInsertIssued : Bool
  alerted : Bool
deriving DecidableEq, Repr

/-- The optimistic placeholder message of `handleSendMessage`. -/
def optimisticMsg (tempId text me : String) (now : Nat) : Message :=
  { id := tempId
    content := text
    created_at := now
    sender_id := me
    attachments := []
    poll := none
    readBy := [] }

/-- The guard of `handleSendMessage` against sending into a direct thread
whose first other participant is on the caller's block list. -/
def sendBlockedGuard (threads : List ThreadSummary) (threadId me : String)
    (blockedUserIds : List String) : Bool :=
  match threads.find? (fun t => t.id == threadId) with
  | none => false
  | some selectedThread =>
    if selectedThread.is_group then false
    else
      match selectedThread.participants.find? (fun p => !(p.user_id == me)) with
      | none => false
      | some otherParticipant => blockedUserIds.contains otherParticipant.user_id

/-- The optimistic thread-list bump of `handleSendMessage`: the selected
thread gets its `updated_at` and preview refreshed, then the list is
re-sorted descending by `updated_at`. -/
def bumpThreads (threads : List ThreadSummary) (threadId text me : String)
    (now : Nat) : List ThreadSummary :=
  sortDescBy (fun t => t.updated_at) (threads.map (fun t =>
    if t.id == threadId then
      { t with
        updated_at := now
        last_message := some { content := text, created_at := now, sender_id := me } }
    else t))

/-- A `handleSendMessage` run that performs no mutation at all. -/
def sendNoOp (newMessageText : String) (threads : List ThreadSummary)
    (messages : List Message) (alerted : Bool) : SendResult :=
  { messagesMid := messages, messages := messages, threads := threads
    composer := newMessageText, remoteInsertIssued := false, alerted := alerted }

/-- `handleSendMessage`: guard on empty (trimmed) input and missing thread
selection; guard against sending into a direct thread whose other
participant is blocked (alert, no mutation); otherwise clear the composer,
prepend an optimistic placeholder, bump and re-sort the thread list, then
issue the insert — on success swap the temporary id for the real one in
place, on failure drop the placeholder, restore the text and alert. -/
def handleSendMessage (newMessageText : String) (selectedThreadId : Option String)
    (threads : List ThreadSummary) (me : String) (blockedUserIds : List String)
    (messages : List Message) (tempId : String) (now : Nat) (outcome : SendOutcome) :
    SendResult :=
  match selectedThreadId with
  | none => sendNoOp newMessageText threads messages false
  | some threadId =>
    if jsTrim newMessageText == "" then
      sendNoOp newMessageText threads messages false
    else if sendBlockedGuard threads threadId me blockedUserIds then
      sendNoOp newMessageText threads messages true
    else
      let text := jsTrim newMessageText
      let messagesMid := optimisticMsg tempId text me now :: messages
      let threadsMid := bumpThreads threads threadId text me now
      match outcome with
      | .ok realId realCreated =>
        { messagesMid := messagesMid
          messages := messagesMid.map (fun m =>
            if m.id == tempId then { m with id := realId, created_at := realCreated } else m)
          threads := threadsMid
          composer := ""
          remoteInsertIssued := true
          alerted := false }
      | .fail =>
        { messagesMid := messagesMid
          messages := messagesMid.filter (fun m => !(m.id == tempId))
          threads := threadsMid
          composer := text
          remoteInsertIssued := true
          alerted := true }

/-! ### `handleStartConversation` -/

/-- `handleStartConversation`, remote effect: search the cached thread list
for an existing two-participant non-group thread with both the actor and
the target; reuse it if found, otherwise insert a fresh thread row (scope
`direct`, defaults: not a group, not predefined, active) plus its two
participant rows; then insert the initial message if non-empty after
trimming.  Returns the mutated store and the resolved thread id. -/
def handleStartConversation (s : Store) (threads : List ThreadSummary)
    (me targetUserId supId : String) (initialMessage : String)
    (newThreadId newMsgId : String) (now : Nat) : Store × String :=
  let text := jsTrim initialMessage
  let existing := threads.find? (fun t =>
    !t.is_group
      && t.participants.any (fun p => p.user_id == targetUserId)
      && t.participants.any (fun p => p.user_id == me)
      && t.participants.length == 2)
  let resolved :=
    match existing with
    | some t => (s, t.id)
    | none =>
      let newThread : ThreadRow :=
        { id := newThreadId
          created_at := now
          is_group := false
          is_predefined := false
          active := true
          title := none
          supervisor_id := supId
          participants := [{ user_id := me, status := none },
                           { user_id := targetUserId, status := none }] }
      ({ s with threads := s.threads ++ [newThread] }, newThreadId)
  let targetThreadId := resolved.2
  let s₁ := resolved.1
  if text == "" then (s₁, targetThreadId)
  else
    let newMsg : MsgRow :=
      { id := newMsgId, thread_id := targetThreadId, sender_id := me
        body := text, created_at := now, attachments := [] }
    ({ s₁ with messages := s₁.messages ++ [newMsg] }, targetThreadId)

/-- The non-group threads of the store whose participant list has exactly
two entries and contains both `a` and `b` (used to state the direct-thread
uniqueness invariant). -/
def directThreadsBetween (s : Store) (a b : String) : List ThreadRow :=
  s.threads.filter (fun t =>
    !t.is_group && t.participants.length == 2
      && t.participants.any (fun p => p.user_id == a)
      && t.participants.any (fun p => p.user_id == b))

/-! ### `addBlockedUser` -/

/-- Result of `addBlockedUser`: the store after the block-edge insert, the
updated client block list, and the open thread view after the immediate
purge of the target's messages. -/
structure BlockResult where
  store : Store
  blockedUserIds : List String
  messages : List Message
deriving DecidableEq, Repr

/-- `addBlockedUser(targetUserId)`: insert the block edge, append the
target to the client block list, and filter the target's messages out of
the currently open thread view.  No thread or message row is touched. -/
def addBlockedUser (s : Store) (me targetUserId : String)
    (blockedUserIds : List String) (messages : List Message) : BlockResult :=
  { store := { s with blocked := s.blocked ++ [{ blocked_by := me, blocked_user_id := targetUserId }] }
    blockedUserIds := blockedUserIds ++ [targetUserId]
    messages := messages.filter (fun m => !(m.sender_id == targetUserId)) }

/-! ### `performSearch` (recipient resolver) -/

/-- Row of `users`. -/
structure UserRow where
  id : String
  first_name : String
  family_name : String
  email : Option String
  user_type : String
  manager_id : Option String
  is_deleted : Bool
deriving DecidableEq, Repr

/-- Row of `children_info` (a child's relationship record in a facility). -/
structure ChildInfoRow where
  user_id : String
  facility_id : String
  is_deleted : Bool
deriving DecidableEq, Repr

/-- Row of `facilities`. -/
structure FacilityRow where
  id : String
  supervisor_id : String
  is_deleted : Bool
deriving DecidableEq, Repr

/-- Row of `supervisor_coordinator_facilities`. -/
structure CoordFacRow where
  staff_user_id : String
  facility_id : String
deriving DecidableEq, Repr

/-- The tables `performSearch` reads. -/
structure SearchDb where
  users : List UserRow
  children_info : List ChildInfoRow
  facilities : List FacilityRow
  coordinator_facilities : List CoordFacRow
deriving DecidableEq, Repr

/-- A search result (`{id, name, email}`). -/
structure ParentOption where
  id : String
  name : String
  email : Option String
deriving DecidableEq, Repr

/-- Substring test on character lists (does `q` occur inside `l`?). -/
def containsSubAux (q : List Char) : List Char → Bool
  | [] => q.isEmpty
  | c :: t => q.isPrefixOf (c :: t) || containsSubAux q t

/-- `ilike '%q%'`: case-insensitive substring match. -/
def ilikeContains (q s : String) : Bool :=
  containsSubAux (q.toList.map Char.toLower) (s.toList.map Char.toLower)

/-- The name filter of the user search:
`.or('first_name.ilike.%q%,family_name.ilike.%q%')`. -/
def nameMatches (q : String) (u : UserRow) : Bool :=
  ilikeContains q u.first_name || ilikeContains q u.family_name

/-- The actor's accessible facility set: coordinated facilities
(`supervisor_coordinator_facilities` by staff user) plus directly owned,
non-deleted facilities, de-duplicated (`Array.from(new Set(...))`). -/
def accessibleFacilities (db : SearchDb) (me supId : String) : List String :=
  let coordinatorIds := (db.coordinator_facilities.filter
    (fun l => l.staff_user_id == me)).map (fun l => l.facility_id)
  let ownedIds := (db.facilities.filter
    (fun f => f.supervisor_id == supId && !f.is_deleted)).map (fun f => f.id)
  (coordinatorIds ++ ownedIds).dedup

/-- The raw user matches of `performSearch`: name fragment match,
non-deleted, `limit(50)`. -/
def userMatchesOf (db : SearchDb) (q : String) : List UserRow :=
  (db.users.filter (fun u => nameMatches q u && !u.is_deleted)).take 50

/-- `{id, name: first_name + ' ' + family_name, email}`. -/
def toParentOption (u : UserRow) : ParentOption :=
  { id := u.id, name := u.first_name ++ " " ++ u.family_name, email := u.email }

/-- The `seenIds` de-duplicating push of `performSearch`. -/
def pushUnique (acc : List ParentOption) (p : ParentOption) : List ParentOption :=
  if acc.any (fun x => x.id == p.id) then acc else acc ++ [p]

/-- Lexicographic comparison of character lists (a total, computable
stand-in for `localeCompare`). -/
def lexLe : List Char → List Char → Bool
  | [], _ => true
  | _ :: _, [] => false
  | a :: as, b :: bs =>
    if a.toNat < b.toNat then true
    else if b.toNat < a.toNat then false
    else lexLe as bs

/-- The final `sort((a, b) => a.name.localeCompare(b.name))`. -/
def sortByName (l : List ParentOption) : List ParentOption :=
  l.insertionSort (fun a b => lexLe a.name.toList b.name.toList)

/-- Branch A of `performSearch`: the name-matched users of type `child`. -/
def childMatchesOf (db : SearchDb) (q : String) : List UserRow :=
  (userMatchesOf db q).filter (fun u => u.user_type == "child")

/-- The matched children's active relationship records in accessible
facilities (`childInfos`), reduced to their child ids (`validChildIds`). -/
def validChildIdsOf (db : SearchDb) (q me supId : String) : List String :=
  (db.children_info.filter (fun ci =>
    ((childMatchesOf db q).map (fun c => c.id)).contains ci.user_id
      && (accessibleFacilities db me supId).contains ci.facility_id
      && !ci.is_deleted)).map (fun ci => ci.user_id)

/-- The manager ids of the facility-validated matched children. -/
def managerIdsOf (db : SearchDb) (q me supId : String) : List String :=
  ((childMatchesOf db q).filter (fun c =>
    (validChildIdsOf db q me supId).contains c.id
      && c.manager_id.isSome)).filterMap (fun c => c.manager_id)

/-- The parents fetched for the validated children
(`if (managerIds.length > 0)` guard included). -/
def parentsOfChildrenOf (db : SearchDb) (q me supId : String) : List UserRow :=
  if (managerIdsOf db q me supId).isEmpty then []
  else db.users.filter (fun u => (managerIdsOf db q me supId).contains u.id)

/-- The results accumulated by branch A with the `seenIds` de-duplication. -/
def resultsAOf (db : SearchDb) (q me supId : String) : List ParentOption :=
  ((parentsOfChildrenOf db q me supId).map toParentOption).foldl pushUnique []

/-- Branch B of `performSearch`: the name-matched parents/guardians. -/
def parentMatchesOf (db : SearchDb) (q : String) : List UserRow :=
  (userMatchesOf db q).filter (fun u =>
    u.user_type == "parent" || u.user_type == "guardian")

/-- The users managed by a matched parent (`.in('manager_id', parentIds)`). -/
def managedChildrenOf (db : SearchDb) (q : String) : List UserRow :=
  db.users.filter (fun u =>
    match u.manager_id with
    | some m => ((parentMatchesOf db q).map (fun p => p.id)).contains m
    | none => false)

/-- The managed children's active records in accessible facilities. -/
def facilityChildrenOf (db : SearchDb) (q me supId : String) : List ChildInfoRow :=
  db.children_info.filter (fun ci =>
    ((managedChildrenOf db q).map (fun c => c.id)).contains ci.user_id
      && (accessibleFacilities db me supId).contains ci.facility_id
      && !ci.is_deleted)

/-- The matched parents validated by at least one managed child with an
accessible active record. -/
def validParentIdsOf (db : SearchDb) (q me supId : String) : List String :=
  ((managedChildrenOf db q).filter (fun c =>
    ((facilityChildrenOf db q me supId).map (fun ci => ci.user_id)).contains c.id)).filterMap
      (fun c => c.manager_id)

/-- Branches A and B combined: branch B runs only when there are matched
parents and they manage at least one child
(the `if (parentIds.length > 0)` / `if (managedChildIds.length > 0)` guards). -/
def combinedResultsOf (db : SearchDb) (q me supId : String) : List ParentOption :=
  if ((parentMatchesOf db q).map (fun p => p.id)).isEmpty then resultsAOf db q me supId
  else if ((managedChildrenOf db q).map (fun c => c.id)).isEmpty then resultsAOf db q me supId
  else
    (((parentMatchesOf db q).filter (fun p =>
      (validParentIdsOf db q me supId).contains p.id)).map toParentOption).foldl
        pushUnique (resultsAOf db q me supId)

/-- `performSearch(query)`, after the actor has been resolved: compute the
accessible facility set; match users by name; accept a matched child only
with an active relationship record in an accessible facility, surfacing
the child's manager instead; accept a matched parent/guardian only when
one of their managed children has such a record; de-duplicate and sort by
name. -/
def performSearch (db : SearchDb) (q me supId : String) : List ParentOption :=
  if (accessibleFacilities db me supId).isEmpty then []
  else sortByName (combinedResultsOf db q me supId)

/-! ### Concrete fixtures used by witnesses and counterexamples -/

/-- A concrete poll. -/
def pollFix : Poll :=
  { id := "p1", question := "Lunch?", multiple_choice := false,
    options := [{ id := "o1", label := "Yes", position := 0, votes := 0, selected := false },
                { id := "o2", label := "No", position := 1, votes := 0, selected := false }] }

/-- A cached poll-bearing message. -/
def msgCachedFix : Message :=
  { id := "m1", content := "", created_at := 5, sender_id := "A",
    attachments := [], poll := some pollFix, readBy := [] }

/-- The same message as announced by a push payload: empty body, no
attachments, poll rows not yet visible. -/
def msgFreshFix : Message :=
  { id := "m1", content := "", created_at := 5, sender_id := "A",
    attachments := [], poll := none, readBy := ["B"] }

/-- A concrete store: one direct thread between "A" and "B", a text
message from "B", a poll message from "A" with two options, one vote and
one read receipt. -/
def storeFix : Store :=
  { threads := [{ id := "t1", created_at := 0, is_group := false, is_predefined := false,
                  active := true, title := none, supervisor_id := "S",
                  participants := [{ user_id := "A", status := none },
                                   { user_id := "B", status := none }] }]
    messages := [{ id := "m1", thread_id := "t1", sender_id := "B", body := "Hallo",
                   created_at := 1, attachments := [] },
                 { id := "m2", thread_id := "t1", sender_id := "A", body := "",
                   created_at := 2, attachments := [] }]
    polls := [{ id := "p1", message_id := "m2", question := "Lunch?", multiple_choice := false }]
    options := [{ id := "o1", poll_id := "p1", label := "Yes", position := 0 },
                { id := "o2", poll_id := "p1", label := "No", position := 1 }]
    votes := [{ poll_id := "p1", option_id := "o1", voter_id := "B" }]
    reads := [{ thread_id := "t1", user_id := "B", last_read_message_id := "m1", read_at := 3 }]
    blocked := [] }

/-- A direct thread row between "A" and "B" under supervisor scope "S". -/
def threadFix : ThreadRow :=
  { id := "T1", created_at := 0, is_group := false, is_predefined := false,
    active := true, title := none, supervisor_id := "S",
    participants := [{ user_id := "A", status := none }, { user_id := "B", status := none }] }

/-- A store holding only `threadFix`, with "A" having blocked "B". -/
def storeBlockedFix : Store :=
  { threads := [threadFix], messages := [], polls := [], options := [], votes := [],
    reads := [], blocked := [{ blocked_by := "A", blocked_user_id := "B" }] }

/-- The same store without the block edge. -/
def storeUnblockedFix : Store :=
  { storeBlockedFix with blocked := [] }

/-- The thread summary of `threadFix` as the client directory caches it. -/
def threadSummaryFix : ThreadSummary :=
  { id := "T1", title := none, updated_at := 0,
    participants := [{ user_id := "A", status := none }, { user_id := "B", status := none }],
    is_group := false, last_message := none }

/-- A child user "Mia" managed by guardian "g1". -/
def miaFix : UserRow :=
  { id := "c1", first_name := "Mia", family_name := "Keller", email := none,
    user_type := "child", manager_id := some "g1", is_deleted := false }

/-- The guardian of `miaFix`. -/
def gretaFix : UserRow :=
  { id := "g1", first_name := "Greta", family_name := "Keller", email := some "gk@example.org",
    user_type := "guardian", manager_id := none, is_deleted := false }

/-- Mia's active relationship record in facility "F2". -/
def miaInfoFix : ChildInfoRow :=
  { user_id := "c1", facility_id := "F2", is_deleted := false }

/-- A search database: Mia enrolled in facility "F2", owned by
supervisor "S". -/
def dbFix : SearchDb :=
  { users := [miaFix, gretaFix]
    children_info := [miaInfoFix]
    facilities := [{ id := "F2", supervisor_id := "S", is_deleted := false }]
    coordinator_facilities := [] }

/-! ### Helper lemmas about the `fetchMessages` merge -/

theorem mergeOne_id (prev : List Message) (n : Message) :
    (mergeOne prev n).id = n.id := by
  unfold mergeOne
  cases prev.find? (fun p => p.id == n.id) with
  | none => rfl
  | some e =>
    by_cases h : (n.poll.isNone && e.poll.isSome && n.content == ""
      && n.attachments.isEmpty) = true
    · simp [h]
    · simp [h]

theorem find?_map_mergeOne (prev : List Message) (l : List Message) (i : String) :
    (l.map (mergeOne prev)).find? (fun m => m.id == i) =
      (l.find? (fun m => m.id == i)).map (mergeOne prev) := by
  induction l with
  | nil => rfl
  | cons a t ih =>
    simp only [List.map_cons, List.find?_cons]
    rw [mergeOne_id]
    cases h : (a.id == i) with
    | false => simpa [h] using ih
    | true => simp [h]

/-- Claim C1: in the `fetchMessages` merge, when the fresh authoritative
payload for a message id has empty body, no attachments and no poll, but
the cached entry for that id already carries a poll, the merged entry for
that id retains the cached poll — a previously displayed poll is never
erased by the merge. -/
theorem mergeMessages_preserves_cached_poll (prev fresh : List Message) (i : String)
    (n e : Message) (p : Poll)
    (hn : fresh.find? (fun m => m.id == i) = some n)
    (hbody : n.content = "") (hatt : n.attachments = []) (hpoll : n.poll = none)
    (he : prev.find? (fun m => m.id == i) = some e) (hep : e.poll = some p) :
    (mergeMessages prev fresh).find? (fun m => m.id == i) =
      some { n with poll := some p } := by
  have hid : n.id = i := by
    have h := List.find?_some hn
    simpa using h
  unfold mergeMessages
  rw [find?_map_mergeOne, hn]
  simp only [Option.map_some']
  have : mergeOne prev n = { n with poll := some p } := by
    unfold mergeOne
    rw [hid, he]
    simp [hpoll, hep, hbody, hatt]
  rw [this]

/-- Witness for C1 at a concrete cache and payload. -/
theorem mergeMessages_preserves_cached_poll_witness :
    (mergeMessages [msgCachedFix] [msgFreshFix]).find? (fun m => m.id == "m1") =
      some { msgFreshFix with poll := some pollFix } :=
  mergeMessages_preserves_cached_poll [msgCachedFix] [msgFreshFix] "m1"
    msgFreshFix msgCachedFix pollFix (by decide) rfl rfl rfl (by decide) rfl

/-- Claim C2: remote semantics of `handleVote`.  Toggling an option off
deletes exactly the voter's vote row for that option; a fresh vote on a
single-choice poll first deletes all of the voter's rows for the poll and
then inserts the new row; on a multiple-choice poll only the insert
happens; consequently voting one option and then another on a
single-choice poll leaves exactly one row for the voter, on the second
option. -/
theorem handleVote_spec (votes : List VoteRow) (pollId optionId secondOptionId me : String)
    (multiple : Bool) :
    (∀ v : VoteRow, (handleVote votes pollId optionId me true multiple).count v =
      if v = { poll_id := pollId, option_id := optionId, voter_id := me } then 0
      else votes.count v) ∧
    (∀ v : VoteRow, (handleVote votes pollId optionId me false false).count v =
      if v.poll_id = pollId ∧ v.voter_id = me then
        (if v = { poll_id := pollId, option_id := optionId, voter_id := me } then 1 else 0)
      else votes.count v) ∧
    (handleVote votes pollId optionId me false true =
      votes ++ [{ poll_id := pollId, option_id := optionId, voter_id := me }]) ∧
    ((handleVote (handleVote votes pollId optionId me false false)
        pollId secondOptionId me false false).filter
      (fun v => v.poll_id == pollId && v.voter_id == me) =
      [{ poll_id := pollId, option_id := secondOptionId, voter_id := me }]) := by
  refine ⟨?_, ?_, ?_, ?_⟩
  · intro v
    by_cases hv : v = { poll_id := pollId, option_id := optionId, voter_id := me }
    · subst hv
      simp [handleVote, List.count_eq_zero, List.mem_filter]
    · rw [if_neg hv]
      unfold handleVote
      rw [if_pos rfl]
      apply List.count_filter
      obtain ⟨vp, vo, vv⟩ := v
      simp only [VoteRow.mk.injEq, not_and] at hv
      simp only [Bool.not_eq_true', Bool.and_eq_true, beq_iff_eq, not_and] at *
      by_cases h1 : vp = pollId
      · by_cases h2 : vo = optionId
        · simp [h1, h2, hv h1 h2]
        · simp [h2]
      · simp [h1]
  · intro v
    unfold handleVote
    simp only [Bool.false_eq_true, if_false, Bool.not_true, Bool.not_false, if_true]
    rw [List.count_append]
    by_cases h1 : v.poll_id = pollId ∧ v.voter_id = me
    · rw [if_pos h1]
      have hz : (votes.filter (fun v => !(v.poll_id == pollId && v.voter_id == me))).count v = 0 := by
        rw [List.count_eq_zero]
        intro hm
        rcases List.mem_filter.mp hm with ⟨-, hp⟩
        simp [h1.1, h1.2] at hp
      rw [hz]
      by_cases hv : v = { poll_id := pollId, option_id := optionId, voter_id := me }
      · subst hv; simp
      · rw [if_neg hv]
        simp only [Nat.zero_add, List.count_singleton]
        rw [if_neg]
        simp only [beq_iff_eq]
        exact fun h => hv h.symm
    · rw [if_neg h1]
      have hc : (votes.filter (fun v => !(v.poll_id == pollId && v.voter_id == me))).count v =
          votes.count v := by
        apply List.count_filter
        obtain ⟨vp, vo, vv⟩ := v
        simp only [not_and] at h1
        simp only [Bool.not_eq_true', Bool.and_eq_true, beq_iff_eq] at *
        by_cases hp : vp = pollId
        · simp [hp, h1 hp]
        · simp [hp]
      have hne : ¬(({ poll_id := pollId, option_id := optionId, voter_id := me } : VoteRow) == v) = true := by
        simp only [beq_iff_eq]
        intro h
        exact h1 ⟨by rw [← h], by rw [← h]⟩
      rw [hc, List.count_singleton, if_neg hne]
      exact Nat.add_zero _
  · rfl
  · unfold handleVote
    simp only [Bool.false_eq_true, if_false, Bool.not_true, Bool.not_false, if_true]
    rw [List.filter_append, List.filter_append]
    have h1 : ∀ (l : List VoteRow),
        (l.filter (fun v => !(v.poll_id == pollId && v.voter_id == me))).filter
          (fun v => v.poll_id == pollId && v.voter_id == me) = [] := by
      intro l
      rw [List.filter_eq_nil_iff]
      intro a ha
      rcases List.mem_filter.mp ha with ⟨-, hp⟩
      simp only [Bool.not_eq_true'] at hp
      simp [hp]
    rw [List.filter_append, h1, h1]
    simp

/-! ### Helper lemmas for the idempotence of `fetchMessages` -/

theorem upsertRead_filter (reads : List ReadRow) (r : ReadRow) (p : ReadRow → Bool)
    (hp : ∀ x : ReadRow, x.user_id = r.user_id → p x = false) :
    (upsertRead reads r).filter p = reads.filter p := by
  unfold upsertRead
  by_cases h : reads.any (fun x => x.thread_id == r.thread_id && x.user_id == r.user_id)
  · rw [if_pos h]
    clear h
    induction reads with
    | nil => rfl
    | cons a t ih =>
      simp only [List.map_cons]
      by_cases ha : (a.thread_id == r.thread_id && a.user_id == r.user_id) = true
      · have hau : a.user_id = r.user_id := eq_of_beq (Bool.and_eq_true _ _ ▸ ha).2
        rw [if_pos ha, List.filter_cons, List.filter_cons, hp r rfl, hp a hau]
        simpa using ih
      · rw [if_neg ha, List.filter_cons, List.filter_cons]
        cases hpa : p a
        · simpa [hpa] using ih
        · simpa [hpa] using ih
  · rw [if_neg h, List.filter_append]
    have hr : [r].filter p = [] := by simp [hp r rfl]
    rw [hr, List.append_nil]

theorem readByOf_upsert (filteredMsgs : List MsgRow) (reads : List ReadRow)
    (cursor : ReadRow) (threadId me : String) (m : MsgRow)
    (hcur : cursor.user_id = me) :
    readByOf filteredMsgs
        ((upsertRead reads cursor).filter (fun r => r.thread_id == threadId)) me m =
      readByOf filteredMsgs (reads.filter (fun r => r.thread_id == threadId)) me m := by
  unfold readByOf
  rw [List.filter_filter, List.filter_filter]
  rw [upsertRead_filter]
  intro x hx
  have hxme : x.user_id = me := hx.trans hcur
  simp [hxme]

theorem formatMessages_upsert (s : Store) (threadId me : String)
    (blockedUserIds : List String) (cursor : ReadRow) (hcur : cursor.user_id = me) :
    formatMessages { s with reads := upsertRead s.reads cursor } threadId me blockedUserIds =
      formatMessages s threadId me blockedUserIds := by
  unfold formatMessages
  apply List.map_congr_left
  intro m _
  unfold formatOne
  rw [readByOf_upsert _ s.reads cursor threadId me m hcur]
  rfl

theorem find?_id_self (l : List Message) (n : Message)
    (hl : (l.map (fun m => m.id)).Nodup) (hn : n ∈ l) :
    l.find? (fun m => m.id == n.id) = some n := by
  induction l with
  | nil => cases hn
  | cons a t ih =>
    simp only [List.map_cons, List.nodup_cons] at hl
    rcases List.mem_cons.mp hn with h | h
    · subst h
      simp [List.find?_cons]
    · have hne : (a.id == n.id) = false := by
        rw [beq_eq_false_iff_ne]
        intro he
        exact hl.1 (he ▸ List.mem_map.mpr ⟨n, h, rfl⟩)
      rw [List.find?_cons, hne]
      exact ih hl.2 h

theorem mergeOne_mergeMessages (prev fresh : List Message) (n : Message)
    (hids : (fresh.map (fun m => m.id)).Nodup) (hn : n ∈ fresh) :
    mergeOne (mergeMessages prev fresh) n = mergeOne prev n := by
  have hfind : (mergeMessages prev fresh).find? (fun p => p.id == n.id) =
      some (mergeOne prev n) := by
    unfold mergeMessages
    rw [find?_map_mergeOne, find?_id_self fresh n hids hn]
    rfl
  cases hf : prev.find? (fun p => p.id == n.id) with
  | none =>
    have hone : mergeOne prev n = n := by unfold mergeOne; rw [hf]
    rw [hone] at hfind ⊢
    unfold mergeOne
    rw [hfind]
    dsimp only
    cases hnp : n.poll with
    | none => simp
    | some q => simp
  | some e =>
    by_cases hcond : (n.poll.isNone && e.poll.isSome && n.content == ""
        && n.attachments.isEmpty) = true
    · have hone : mergeOne prev n = { n with poll := e.poll } := by
        unfold mergeOne; rw [hf]; dsimp only; rw [if_pos hcond]
      rw [hone] at hfind ⊢
      unfold mergeOne
      rw [hfind]
      dsimp only
      rw [if_pos]
      exact hcond
    · have hone : mergeOne prev n = n := by
        unfold mergeOne; rw [hf]; dsimp only; rw [if_neg hcond]
      rw [hone] at hfind ⊢
      unfold mergeOne
      rw [hfind]
      dsimp only
      cases hnp : n.poll with
      | none => simp
      | some q => simp

theorem mergeMessages_idem (prev fresh : List Message)
    (hids : (fresh.map (fun m => m.id)).Nodup) :
    mergeMessages (mergeMessages prev fresh) fresh = mergeMessages prev fresh := by
  show fresh.map (mergeOne (mergeMessages prev fresh)) = fresh.map (mergeOne prev)
  apply List.map_congr_left
  intro n hn
  exact mergeOne_mergeMessages prev fresh n hids hn

theorem formatted_ids_nodup (s : Store) (threadId me : String) (blockedUserIds : List String)
    (h : (s.messages.map (fun m => m.id)).Nodup) :
    ((formatMessages s threadId me blockedUserIds).map (fun m => m.id)).Nodup := by
  unfold formatMessages
  rw [List.map_map]
  show (((msgsOf s threadId).filter
    (fun m => m.sender_id == me || !(blockedUserIds.contains m.sender_id))).map
      (fun m => m.id)).Nodup
  apply List.Nodup.sublist (List.Sublist.map _ (List.filter_sublist _))
  have hfil : ((s.messages.filter (fun m => m.thread_id == threadId)).map
      (fun m => m.id)).Nodup :=
    List.Nodup.sublist (List.Sublist.map _ (List.filter_sublist _)) h
  have hperm : (msgsOf s threadId).Perm
      (s.messages.filter (fun m => m.thread_id == threadId)) :=
    List.perm_insertionSort _ _
  exact (hperm.map (fun m => m.id)).symm.nodup hfil

/-- Claim C3: `fetchMessages` (the spec's `loadMessages`) is idempotent:
against an unchanged authoritative snapshot — apart from the first call's
own read-cursor advance — a second call returns exactly the cache the
first call produced: identical ordered list, identical poll data and
identical per-message `readBy` sets.  Message ids are assumed pairwise
distinct, as they are primary keys of the store. -/
theorem fetchMessages_idem (s : Store) (threadId me : String)
    (blockedUserIds : List String) (prev : List Message) (now₁ now₂ : Nat)
    (hids : (s.messages.map (fun m => m.id)).Nodup) :
    (fetchMessages (fetchMessages s threadId me blockedUserIds prev now₁ .ok).store
        threadId me blockedUserIds
        (fetchMessages s threadId me blockedUserIds prev now₁ .ok).cache now₂ .ok).cache =
      (fetchMessages s threadId me blockedUserIds prev now₁ .ok).cache := by
  have hnodup := formatted_ids_nodup s threadId me blockedUserIds hids
  cases hm : msgsOf s threadId with
  | nil =>
    simp only [fetchMessages, hm]
    exact mergeMessages_idem prev _ hnodup
  | cons latest rest =>
    simp only [fetchMessages, hm]
    rw [formatMessages_upsert s threadId me blockedUserIds _ rfl]
    exact mergeMessages_idem prev _ hnodup

/-- Witness for C3 on a concrete store with a poll, a vote and a read
receipt. -/
theorem fetchMessages_idem_witness :
    (fetchMessages (fetchMessages storeFix "t1" "A" [] [] 10 .ok).store "t1" "A" []
        (fetchMessages storeFix "t1" "A" [] [] 10 .ok).cache 20 .ok).cache =
      (fetchMessages storeFix "t1" "A" [] [] 10 .ok).cache :=
  fetchMessages_idem storeFix "t1" "A" [] [] 10 20 (by decide)

/-- Claim C7, counterexample: on a failed authoritative fetch the cached
list is indeed left untouched, but the error is not surfaced to the
caller — `fetchMessages` catches it, only logs it, and resolves
normally. -/
theorem fetchMessages_failure_not_surfaced :
    (fetchMessages storeFix "t1" "A" [] [msgCachedFix] 9 (.fail "network")).cache =
        [msgCachedFix] ∧
      (fetchMessages storeFix "t1" "A" [] [msgCachedFix] 9 (.fail "network")).erroredToCaller =
        none :=
  ⟨rfl, rfl⟩

/-- Claim C7 as amended: when the authoritative fetch inside
`fetchMessages` fails, the previously cached message list is returned
completely unchanged and the store is untouched, but the error is only
logged by the `catch` block, not propagated to the caller. -/
theorem fetchMessages_failure_spec (s : Store) (threadId me : String)
    (blockedUserIds : List String) (prev : List Message) (now : Nat) (e : String) :
    fetchMessages s threadId me blockedUserIds prev now (.fail e) =
      { cache := prev, store := s, erroredToCaller := none, loggedError := some e } :=
  rfl

/-- Claim C5, counterexample: the whitespace-only composer text " " is a
non-empty input, yet `handleSendMessage` performs no mutation at all — no
placeholder is prepended and no remote insert is issued, because the guard
tests the trimmed text. -/
theorem handleSendMessage_whitespace_noop :
    (" " ≠ "") ∧
      (handleSendMessage " " (some "t1") [] "A" [] [] "temp1" 9 .fail).messagesMid = [] ∧
      (handleSendMessage " " (some "t1") [] "A" [] [] "temp1" 9 .fail).remoteInsertIssued
        = false := by
  refine ⟨by decide, ?_, ?_⟩ <;> rfl

theorem sendReplace_map_eq (realId : String) (realCreated : Nat) (tempId : String)
    (l : List Message) (h : ∀ m ∈ l, (m.id == tempId) = false) :
    l.map (fun m =>
      if m.id == tempId then { m with id := realId, created_at := realCreated } else m) = l := by
  induction l with
  | nil => rfl
  | cons a t ih =>
    have ha := h a (List.mem_cons_self a t)
    simp only [List.map_cons, ha, Bool.false_eq_true, if_false]
    rw [ih (fun m hm => h m (List.mem_cons_of_mem a hm))]

theorem sendFilter_keep (tempId : String) (l : List Message)
    (h : ∀ m ∈ l, (m.id == tempId) = false) :
    l.filter (fun m => !(m.id == tempId)) = l := by
  apply List.filter_eq_self.mpr
  intro m hm
  simp [h m hm]

/-- Claim C5 as amended: for every composer input whose trimmed text is
non-empty, sent into a selected thread that is not guarded as blocked,
with a temporary id not already present in the cache: the optimistic
placeholder carrying the temporary id is prepended to the cache before
the remote insert; on success the temporary id is replaced in place by
the real id (the rest of the list untouched and in its original order);
on failure the placeholder is removed and the trimmed text is restored to
the composer for retry. -/
theorem handleSendMessage_pipeline (newMessageText threadId me tempId : String)
    (threads : List ThreadSummary) (blockedUserIds : List String)
    (messages : List Message) (now : Nat) (outcome : SendOutcome)
    (htrim : jsTrim newMessageText ≠ "")
    (hguard : sendBlockedGuard threads threadId me blockedUserIds = false)
    (htemp : ∀ m ∈ messages, m.id ≠ tempId) :
    (handleSendMessage newMessageText (some threadId) threads me blockedUserIds
        messages tempId now outcome).messagesMid =
      optimisticMsg tempId (jsTrim newMessageText) me now :: messages ∧
    (∀ realId realCreated, outcome = .ok realId realCreated →
      (handleSendMessage newMessageText (some threadId) threads me blockedUserIds
          messages tempId now outcome).messages =
        { optimisticMsg tempId (jsTrim newMessageText) me now with
            id := realId, created_at := realCreated } :: messages) ∧
    (outcome = .fail →
      (handleSendMessage newMessageText (some threadId) threads me blockedUserIds
          messages tempId now outcome).messages = messages ∧
      (handleSendMessage newMessageText (some threadId) threads me blockedUserIds
          messages tempId now outcome).composer = jsTrim newMessageText) := by
  have htrim' : (jsTrim newMessageText == "") = false := by
    rw [beq_eq_false_iff_ne]
    exact htrim
  have hkeep : ∀ m ∈ messages, (m.id == tempId) = false := by
    intro m hm
    rw [beq_eq_false_iff_ne]
    exact htemp m hm
  refine ⟨?_, ?_, ?_⟩
  · cases outcome with
    | ok realId realCreated =>
      simp only [handleSendMessage, htrim', hguard, Bool.false_eq_true, if_false]
    | fail =>
      simp only [handleSendMessage, htrim', hguard, Bool.false_eq_true, if_false]
  · rintro realId realCreated rfl
    simp only [handleSendMessage, htrim', hguard, Bool.false_eq_true, if_false,
      List.map_cons]
    have hopt : (optimisticMsg tempId (jsTrim newMessageText) me now).id = tempId := rfl
    rw [hopt, if_pos (beq_self_eq_true tempId)]
    rw [sendReplace_map_eq realId realCreated tempId messages hkeep]
  · rintro rfl
    simp only [handleSendMessage, htrim', hguard, Bool.false_eq_true, if_false,
      List.filter_cons]
    have hopt : ((optimisticMsg tempId (jsTrim newMessageText) me now).id == tempId) = true :=
      beq_self_eq_true tempId
    simp only [hopt, Bool.not_true, Bool.false_eq_true, if_false]
    exact ⟨sendFilter_keep tempId messages hkeep, trivial⟩

/-- Witness for the amended C5 at a concrete composer text and cache. -/
theorem handleSendMessage_pipeline_witness :
    (handleSendMessage " hi " (some "t1") [] "A" [] [] "temp1" 9
        (.ok "m9" 11)).messagesMid =
      optimisticMsg "temp1" (jsTrim " hi ") "A" 9 :: [] ∧
    (∀ realId realCreated, (SendOutcome.ok "m9" 11) = .ok realId realCreated →
      (handleSendMessage " hi " (some "t1") [] "A" [] [] "temp1" 9
          (.ok "m9" 11)).messages =
        { optimisticMsg "temp1" (jsTrim " hi ") "A" 9 with
            id := realId, created_at := realCreated } :: []) ∧
    ((SendOutcome.ok "m9" 11) = .fail →
      (handleSendMessage " hi " (some "t1") [] "A" [] [] "temp1" 9
          (.ok "m9" 11)).messages = [] ∧
      (handleSendMessage " hi " (some "t1") [] "A" [] [] "temp1" 9
          (.ok "m9" 11)).composer = jsTrim " hi ") :=
  handleSendMessage_pipeline " hi " "t1" "A" "temp1" [] [] [] 9 (.ok "m9" 11)
    (by decide) (by decide) (by intro m hm; cases hm)

/-- Claim C10: invoking `handleSendMessage` with non-empty (trimmed) text
into a non-group thread whose other participant is on the caller's block
list performs no mutation at all: no optimistic placeholder is inserted,
the composer is not cleared, the thread list is untouched, no remote
insert is issued, and the call returns after alerting the user. -/
theorem handleSendMessage_blocked_guard (newMessageText threadId me tempId : String)
    (threads : List ThreadSummary) (blockedUserIds : List String)
    (messages : List Message) (now : Nat) (outcome : SendOutcome)
    (t : ThreadSummary) (other : PartRow)
    (htrim : jsTrim newMessageText ≠ "")
    (hfind : threads.find? (fun x => x.id == threadId) = some t)
    (hgroup : t.is_group = false)
    (hother : t.participants.find? (fun p => !(p.user_id == me)) = some other)
    (hblocked : blockedUserIds.contains other.user_id = true) :
    handleSendMessage newMessageText (some threadId) threads me blockedUserIds
        messages tempId now outcome =
      { messagesMid := messages, messages := messages, threads := threads
        composer := newMessageText, remoteInsertIssued := false, alerted := true } := by
  have htrim' : (jsTrim newMessageText == "") = false := by
    rw [beq_eq_false_iff_ne]
    exact htrim
  have hguard : sendBlockedGuard threads threadId me blockedUserIds = true := by
    unfold sendBlockedGuard
    rw [hfind]
    dsimp only
    simp only [hgroup, Bool.false_eq_true, if_false]
    rw [hother]
    exact hblocked
  simp only [handleSendMessage, htrim', hguard, Bool.false_eq_true, if_false, if_true]
  rfl

/-- Witness for C10: a concrete direct thread with the other participant
blocked. -/
theorem handleSendMessage_blocked_guard_witness :
    handleSendMessage "hi" (some "T1") [threadSummaryFix] "A" ["B"] [] "temp1" 9 .fail =
      { messagesMid := [], messages := [], threads := [threadSummaryFix]
        composer := "hi", remoteInsertIssued := false, alerted := true } :=
  handleSendMessage_blocked_guard "hi" "T1" "A" "temp1" [threadSummaryFix] ["B"] [] 9 .fail
    threadSummaryFix { user_id := "B", status := none }
    (by decide) (by decide) (by decide) (by decide) (by decide)

/-- Claim C4, counterexample: the direct-thread uniqueness invariant is
violable.  Starting with one direct thread between "A" and "B" and a block
edge A → B, the fetched directory of "A" omits that thread (blocked-thread
filter), so `handleStartConversation` finds no existing thread and inserts
a second one: afterwards two non-group threads exist for the unordered
pair {A, B}. -/
theorem handleStartConversation_duplicate_direct :
    (directThreadsBetween
        ((handleStartConversation storeBlockedFix
          (fetchThreads storeBlockedFix "A" "S") "A" "B" "S" "" "T2" "m9" 5).1)
        "A" "B").length = 2 := by decide

/-- Claim C4 as amended: the search-before-create of
`handleStartConversation` reuses an existing two-participant direct thread
whenever one is present in the cached thread directory — in that case no
thread row is inserted and the existing thread's id is returned.  The
uniqueness invariant therefore holds only relative to the visible
directory; a direct thread hidden from it (for instance because its other
participant is blocked) is not found and a duplicate is created. -/
theorem handleStartConversation_reuses (s : Store) (threads : List ThreadSummary)
    (me targetUserId supId initialMessage newThreadId newMsgId : String) (now : Nat)
    (t : ThreadSummary)
    (hfind : threads.find? (fun t => !t.is_group
        && t.participants.any (fun p => p.user_id == targetUserId)
        && t.participants.any (fun p => p.user_id == me)
        && t.participants.length == 2) = some t) :
    ((handleStartConversation s threads me targetUserId supId initialMessage
        newThreadId newMsgId now).1.threads = s.threads) ∧
    ((handleStartConversation s threads me targetUserId supId initialMessage
        newThreadId newMsgId now).2 = t.id) := by
  unfold handleStartConversation
  rw [hfind]
  by_cases htext : (jsTrim initialMessage == "") = true
  · simp [htext]
  · simp [htext]

/-- Witness for the amended C4: the cached directory contains the direct
thread, so it is reused and no thread row is created. -/
theorem handleStartConversation_reuses_witness :
    ((handleStartConversation storeUnblockedFix [threadSummaryFix]
        "A" "B" "S" "" "T2" "m9" 5).1.threads = storeUnblockedFix.threads) ∧
    ((handleStartConversation storeUnblockedFix [threadSummaryFix]
        "A" "B" "S" "" "T2" "m9" 5).2 = threadSummaryFix.id) :=
  handleStartConversation_reuses storeUnblockedFix [threadSummaryFix]
    "A" "B" "S" "" "T2" "m9" 5 threadSummaryFix (by decide)

/-! ### Helper lemmas about `fetchThreads` -/

theorem sortDescBy_perm (key : α → Nat) (l : List α) : (sortDescBy key l).Perm l :=
  List.perm_insertionSort _ l

theorem sortDescBy_pairwise (key : α → Nat) (l : List α) :
    (sortDescBy key l).Pairwise (fun a b => key b ≤ key a) := by
  haveI : IsTotal α (fun a b => key b ≤ key a) := ⟨fun a b => Nat.le_total (key b) (key a)⟩
  haveI : IsTrans α (fun a b => key b ≤ key a) :=
    ⟨fun _ _ _ hab hbc => Nat.le_trans hbc hab⟩
  exact List.sorted_insertionSort _ l

theorem mem_map_sortDescBy (key : β → Nat) (f : β → γ) (l : List β) (y : γ) :
    y ∈ (sortDescBy key l).map f ↔ y ∈ l.map f :=
  ((sortDescBy_perm key l).map f).mem_iff

theorem isDisabledPredefined_not_iff (t : ThreadRow) :
    (!(isDisabledPredefined t)) = true ↔ ¬(t.is_predefined = true ∧ t.active = false) := by
  unfold isDisabledPredefined
  cases hp : t.is_predefined <;> cases ha : t.active <;> simp

theorem hasActorParticipant_iff (me : String) (t : ThreadRow) :
    hasActorParticipant me t = true ↔ ∃ p ∈ t.participants, p.user_id = me := by
  unfold hasActorParticipant
  simp [List.any_eq_true]

theorem keepUnblockedDirect_iff (me : String) (blockedIds : List String) (t : ThreadRow) :
    keepUnblockedDirect me blockedIds t = true ↔
      ¬(t.is_group = false ∧
        ∃ other, t.participants.find? (fun p => !(p.user_id == me)) = some other ∧
          blockedIds.contains other.user_id = true) := by
  unfold keepUnblockedDirect
  cases hg : t.is_group
  · cases hf : t.participants.find? (fun p => !(p.user_id == me)) with
    | none => simp [hf]
    | some other => simp [hf]
  · simp

/-- The membership characterisation of `fetchThreads`: a thread id is
listed iff some store thread with that id lies in the supervisor scope, is
not a disabled predefined group, lists the actor as participant, and is
not a direct thread whose other participant the actor has blocked. -/
theorem mem_fetchThreads_iff (s : Store) (me supId x : String) :
    x ∈ (fetchThreads s me supId).map (fun t => t.id) ↔
      ∃ t ∈ s.threads, t.id = x ∧ t.supervisor_id = supId ∧
        ¬(t.is_predefined = true ∧ t.active = false) ∧
        (∃ p ∈ t.participants, p.user_id = me) ∧
        ¬(t.is_group = false ∧
          ∃ other, t.participants.find? (fun p => !(p.user_id == me)) = some other ∧
            (blockedIdsOf s me).contains other.user_id = true) := by
  have hVmem : ∀ t : ThreadRow,
      t ∈ ((sortDescBy (fun t => t.created_at)
            (s.threads.filter (fun t => t.supervisor_id == supId))).filter
              (fun t => !(isDisabledPredefined t))).filter (hasActorParticipant me) ↔
        t ∈ s.threads ∧ t.supervisor_id = supId ∧
          ¬(t.is_predefined = true ∧ t.active = false) ∧
          (∃ p ∈ t.participants, p.user_id = me) := by
    intro t
    rw [List.mem_filter, List.mem_filter,
      (sortDescBy_perm (fun t : ThreadRow => t.created_at)
        (s.threads.filter (fun t => t.supervisor_id == supId))).mem_iff,
      List.mem_filter]
    rw [isDisabledPredefined_not_iff, hasActorParticipant_iff, beq_iff_eq]
    tauto
  by_cases hV : ((sortDescBy (fun t => t.created_at)
      (s.threads.filter (fun t => t.supervisor_id == supId))).filter
        (fun t => !(isDisabledPredefined t))).filter (hasActorParticipant me) = []
  · have hempty : fetchThreads s me supId = [] := by
      simp only [fetchThreads]
      rw [hV]
      rfl
    rw [hempty]
    simp only [List.map_nil, List.not_mem_nil, false_iff]
    rintro ⟨t, ht, -, hsup, hpre, hpart, -⟩
    have : t ∈ ([] : List ThreadRow) := hV ▸ (hVmem t).mpr ⟨ht, hsup, hpre, hpart⟩
    cases this
  · have hne : ((((sortDescBy (fun t => t.created_at)
        (s.threads.filter (fun t => t.supervisor_id == supId))).filter
          (fun t => !(isDisabledPredefined t))).filter
            (hasActorParticipant me)).map (fun t => t.id)).isEmpty = false := by
      rw [List.isEmpty_eq_false_iff_exists_mem]
      rcases List.exists_mem_of_ne_nil _ hV with ⟨t, ht⟩
      exact ⟨t.id, List.mem_map.mpr ⟨t, ht, rfl⟩⟩
    simp only [fetchThreads]
    rw [hne]
    simp only [Bool.false_eq_true, if_false]
    rw [mem_map_sortDescBy, List.map_map]
    constructor
    · intro hx
      rcases List.mem_map.mp hx with ⟨t, htf, hid⟩
      rcases List.mem_filter.mp htf with ⟨htV, hkeep⟩
      rcases (hVmem t).mp htV with ⟨ht, hsup, hpre, hpart⟩
      exact ⟨t, ht, hid, hsup, hpre, hpart,
        (keepUnblockedDirect_iff me _ t).mp hkeep⟩
    · rintro ⟨t, ht, hid, hsup, hpre, hpart, hblk⟩
      apply List.mem_map.mpr
      refine ⟨t, List.mem_filter.mpr ⟨(hVmem t).mpr ⟨ht, hsup, hpre, hpart⟩,
        (keepUnblockedDirect_iff me _ t).mpr hblk⟩, hid⟩

/-- Claim C6, counterexample: `fetchThreads` does not return exactly the
scope-and-participant threads: a direct thread whose other participant the
actor has blocked satisfies every condition the claim lists (in scope,
actor listed, not a disabled predefined group) yet is dropped. -/
theorem fetchThreads_blocked_excluded :
    fetchThreads storeBlockedFix "A" "S" = [] ∧
      storeBlockedFix.threads = [threadFix] ∧
      threadFix.supervisor_id = "S" ∧
      (∃ p ∈ threadFix.participants, p.user_id = "A") ∧
      ¬(threadFix.is_predefined = true ∧ threadFix.active = false) := by
  refine ⟨by decide, rfl, rfl, ⟨{ user_id := "A", status := none }, by decide, rfl⟩, by decide⟩

/-- Claim C6 as amended: `fetchThreads` returns exactly the threads under
the actor's supervisor scope in which the actor is a listed participant,
excluding disabled predefined group threads AND excluding non-group
threads whose other participant is on the actor's block list; the result
is sorted descending by last-message time, falling back to the thread's
creation time when it has no messages (the `updated_at` of each
summary). -/
theorem fetchThreads_spec (s : Store) (me supId : String) :
    (∀ x : String, x ∈ (fetchThreads s me supId).map (fun t => t.id) ↔
      ∃ t ∈ s.threads, t.id = x ∧ t.supervisor_id = supId ∧
        ¬(t.is_predefined = true ∧ t.active = false) ∧
        (∃ p ∈ t.participants, p.user_id = me) ∧
        ¬(t.is_group = false ∧
          ∃ other, t.participants.find? (fun p => !(p.user_id == me)) = some other ∧
            (blockedIdsOf s me).contains other.user_id = true)) ∧
    (fetchThreads s me supId).Pairwise (fun a b => b.updated_at ≤ a.updated_at) := by
  constructor
  · intro x
    exact mem_fetchThreads_iff s me supId x
  · simp only [fetchThreads]
    by_cases hE : ((((sortDescBy (fun t => t.created_at)
        (s.threads.filter (fun t => t.supervisor_id == supId))).filter
          (fun t => !(isDisabledPredefined t))).filter
            (hasActorParticipant me)).map (fun t => t.id)).isEmpty = true
    · rw [hE]
      simp
    · rw [Bool.not_eq_true] at hE
      rw [hE]
      simp only [Bool.false_eq_true, if_false]
      exact sortDescBy_pairwise (fun t : ThreadSummary => t.updated_at) _

/-! ### Helper lemmas about `addBlockedUser` and the block list -/

theorem blockedIdsOf_block_self (s : Store) (A B : String) :
    blockedIdsOf
        { s with blocked := s.blocked ++ [{ blocked_by := A, blocked_user_id := B }] } A =
      blockedIdsOf s A ++ [B] := by
  unfold blockedIdsOf
  rw [List.filter_append, List.map_append]
  simp

theorem blockedIdsOf_block_other (s : Store) (A B C : String) (h : ¬(A = C)) :
    blockedIdsOf
        { s with blocked := s.blocked ++ [{ blocked_by := A, blocked_user_id := B }] } C =
      blockedIdsOf s C := by
  unfold blockedIdsOf
  rw [List.filter_append]
  have hnil : [({ blocked_by := A, blocked_user_id := B } : BlockRow)].filter
      (fun b => b.blocked_by == C) = [] := by
    simp [h]
  rw [hnil, List.append_nil]

/-- Claim C8: blocking is an asymmetric visibility filter.  After actor A
blocks B, B's messages are removed from A's open thread view; a direct
thread T whose sole other participant is B disappears from A's directory
while remaining in B's directory; and no thread or message row of the
store is deleted. -/
theorem addBlockedUser_spec (s : Store) (A B sup : String)
    (blockedUserIds : List String) (messages : List Message)
    (T : ThreadRow) (pA pB : PartRow)
    (hnodup : (s.threads.map (fun t => t.id)).Nodup)
    (hmem : T ∈ s.threads)
    (hgroup : T.is_group = false)
    (hsup : T.supervisor_id = sup)
    (hpre : ¬(T.is_predefined = true ∧ T.active = false))
    (hpartA : ∃ p ∈ T.participants, p.user_id = A)
    (hpartB : ∃ p ∈ T.participants, p.user_id = B)
    (hfindA : T.participants.find? (fun p => !(p.user_id == A)) = some pB)
    (hpB : pB.user_id = B)
    (hfindB : T.participants.find? (fun p => !(p.user_id == B)) = some pA)
    (hBnoblock : (blockedIdsOf s B).contains pA.user_id = false)
    (hAB : ¬(A = B)) :
    ((addBlockedUser s A B blockedUserIds messages).store.threads = s.threads) ∧
    ((addBlockedUser s A B blockedUserIds messages).store.messages = s.messages) ∧
    ((addBlockedUser s A B blockedUserIds messages).messages =
      messages.filter (fun m => !(m.sender_id == B))) ∧
    (T.id ∉ (fetchThreads (addBlockedUser s A B blockedUserIds messages).store A sup).map
      (fun t => t.id)) ∧
    (T.id ∈ (fetchThreads (addBlockedUser s A B blockedUserIds messages).store B sup).map
      (fun t => t.id)) := by
  refine ⟨rfl, rfl, rfl, ?_, ?_⟩
  · intro hmemid
    rcases (mem_fetchThreads_iff _ A sup T.id).mp hmemid with
      ⟨t, ht, hid, -, -, -, hblk⟩
    have ht' : t ∈ s.threads := ht
    have hteq : t = T := List.inj_on_of_nodup_map hnodup ht' hmem hid
    subst hteq
    apply hblk
    refine ⟨hgroup, pB, hfindA, ?_⟩
    have hstore : (addBlockedUser s A B blockedUserIds messages).store =
        { s with blocked := s.blocked ++ [{ blocked_by := A, blocked_user_id := B }] } := rfl
    rw [hstore, blockedIdsOf_block_self, hpB]
    exact List.elem_iff.mpr (List.mem_append_right _ (List.mem_singleton.mpr rfl))
  · apply (mem_fetchThreads_iff _ B sup T.id).mpr
    refine ⟨T, hmem, rfl, hsup, hpre, hpartB, ?_⟩
    rintro ⟨-, other, hfind', hcont⟩
    rw [hfindB] at hfind'
    cases Option.some.inj hfind'
    have hstore : (addBlockedUser s A B blockedUserIds messages).store =
        { s with blocked := s.blocked ++ [{ blocked_by := A, blocked_user_id := B }] } := rfl
    rw [hstore, blockedIdsOf_block_other s A B B hAB] at hcont
    rw [hBnoblock] at hcont
    cases hcont

/-- Witness for C8 on `storeFix`: "A" blocks "B" in their direct thread. -/
theorem addBlockedUser_spec_witness :
    ((addBlockedUser storeFix "A" "B" [] [msgFreshFix]).store.threads = storeFix.threads) ∧
    ((addBlockedUser storeFix "A" "B" [] [msgFreshFix]).store.messages = storeFix.messages) ∧
    ((addBlockedUser storeFix "A" "B" [] [msgFreshFix]).messages =
      [msgFreshFix].filter (fun m => !(m.sender_id == "B"))) ∧
    ("t1" ∉ (fetchThreads (addBlockedUser storeFix "A" "B" [] [msgFreshFix]).store "A" "S").map
      (fun t => t.id)) ∧
    ("t1" ∈ (fetchThreads (addBlockedUser storeFix "A" "B" [] [msgFreshFix]).store "B" "S").map
      (fun t => t.id)) :=
  addBlockedUser_spec storeFix "A" "B" "S" [] [msgFreshFix]
    { id := "t1", created_at := 0, is_group := false, is_predefined := false,
      active := true, title := none, supervisor_id := "S",
      participants := [{ user_id := "A", status := none }, { user_id := "B", status := none }] }
    { user_id := "A", status := none } { user_id := "B", status := none }
    (by decide) (by decide) (by decide) (by decide) (by decide)
    ⟨{ user_id := "A", status := none }, by decide, rfl⟩
    ⟨{ user_id := "B", status := none }, by decide, rfl⟩
    (by decide) (by decide) (by decide) (by decide) (by decide)

/-! ### Helper lemmas about `performSearch` -/

theorem mem_of_foldl_pushUnique (l acc : List ParentOption) (p : ParentOption)
    (hp : p ∈ l.foldl pushUnique acc) : p ∈ acc ∨ p ∈ l := by
  induction l generalizing acc with
  | nil => exact Or.inl hp
  | cons a t ih =>
    rcases ih (pushUnique acc a) hp with h | h
    · unfold pushUnique at h
      by_cases ha : acc.any (fun x => x.id == a.id) = true
      · rw [if_pos ha] at h
        exact Or.inl h
      · rw [if_neg ha] at h
        rcases List.mem_append.mp h with h | h
        · exact Or.inl h
        · rcases List.mem_singleton.mp h with rfl
          exact Or.inr (List.mem_cons_self _ _)
    · exact Or.inr (List.mem_cons_of_mem a h)

theorem foldl_pushUnique_prefix (l acc : List ParentOption) :
    ∃ suf, l.foldl pushUnique acc = acc ++ suf := by
  induction l generalizing acc with
  | nil => exact ⟨[], (List.append_nil acc).symm⟩
  | cons a t ih =>
    rcases ih (pushUnique acc a) with ⟨suf, hsuf⟩
    by_cases ha : acc.any (fun x => x.id == a.id) = true
    · refine ⟨suf, ?_⟩
      show t.foldl pushUnique (pushUnique acc a) = acc ++ suf
      rw [hsuf]
      unfold pushUnique
      rw [if_pos ha]
    · refine ⟨[a] ++ suf, ?_⟩
      show t.foldl pushUnique (pushUnique acc a) = acc ++ ([a] ++ suf)
      rw [hsuf]
      unfold pushUnique
      rw [if_neg ha, List.append_assoc]

theorem id_mem_foldl_pushUnique (l acc : List ParentOption) (p : ParentOption)
    (hp : p ∈ l) : p.id ∈ (l.foldl pushUnique acc).map (fun x => x.id) := by
  induction l generalizing acc with
  | nil => cases hp
  | cons a t ih =>
    rcases List.mem_cons.mp hp with rfl | h
    · show p.id ∈ (t.foldl pushUnique (pushUnique acc p)).map (fun x => x.id)
      rcases foldl_pushUnique_prefix t (pushUnique acc p) with ⟨suf, hsuf⟩
      rw [hsuf, List.map_append]
      apply List.mem_append_left
      unfold pushUnique
      by_cases ha : acc.any (fun x => x.id == p.id) = true
      · rw [if_pos ha]
        rcases List.any_eq_true.mp ha with ⟨x, hx, hxid⟩
        exact List.mem_map.mpr ⟨x, hx, eq_of_beq hxid⟩
      · rw [if_neg ha, List.map_append]
        exact List.mem_append_right _ (by simp)
    · exact ih (pushUnique acc a) h

theorem userMatchesOf_sub (db : SearchDb) (q : String) (u : UserRow)
    (hu : u ∈ userMatchesOf db q) : u ∈ db.users := by
  unfold userMatchesOf at hu
  exact (List.mem_filter.mp (List.mem_of_mem_take hu)).1

theorem scoped_manager_of_managerIds (db : SearchDb) (q me supId x : String)
    (hx : (managerIdsOf db q me supId).contains x = true) :
    ∃ c ∈ db.users, c.manager_id = some x ∧
      ∃ ci ∈ db.children_info, ci.user_id = c.id ∧ ci.is_deleted = false ∧
        ci.facility_id ∈ accessibleFacilities db me supId := by
  rw [List.elem_iff] at hx
  unfold managerIdsOf at hx
  rcases List.mem_filterMap.mp hx with ⟨c, hc, hcm⟩
  rcases List.mem_filter.mp hc with ⟨hcChild, hcond⟩
  have hcu : c ∈ db.users := by
    unfold childMatchesOf at hcChild
    exact userMatchesOf_sub db q c (List.mem_filter.mp hcChild).1
  have hvalid : (validChildIdsOf db q me supId).contains c.id = true :=
    (Bool.and_eq_true _ _ ▸ hcond).1
  rw [List.elem_iff] at hvalid
  unfold validChildIdsOf at hvalid
  rcases List.mem_map.mp hvalid with ⟨ci, hcif, hciid⟩
  rcases List.mem_filter.mp hcif with ⟨hcidb, hcicond⟩
  have h12 := (Bool.and_eq_true _ _ ▸ hcicond).1
  have h3 := (Bool.and_eq_true _ _ ▸ hcicond).2
  have h2 := (Bool.and_eq_true _ _ ▸ h12).2
  refine ⟨c, hcu, hcm, ci, hcidb, hciid, ?_, ?_⟩
  · simpa using h3
  · rw [← List.elem_iff]
    exact h2

theorem scoped_manager_of_validParentIds (db : SearchDb) (q me supId x : String)
    (hx : (validParentIdsOf db q me supId).contains x = true) :
    ∃ c ∈ db.users, c.manager_id = some x ∧
      ∃ ci ∈ db.children_info, ci.user_id = c.id ∧ ci.is_deleted = false ∧
        ci.facility_id ∈ accessibleFacilities db me supId := by
  rw [List.elem_iff] at hx
  unfold validParentIdsOf at hx
  rcases List.mem_filterMap.mp hx with ⟨c, hc, hcm⟩
  rcases List.mem_filter.mp hc with ⟨hcManaged, hcond⟩
  have hcu : c ∈ db.users := by
    unfold managedChildrenOf at hcManaged
    exact (List.mem_filter.mp hcManaged).1
  rw [List.elem_iff] at hcond
  rcases List.mem_map.mp hcond with ⟨ci, hcif, hciid⟩
  unfold facilityChildrenOf at hcif
  rcases List.mem_filter.mp hcif with ⟨hcidb, hcicond⟩
  have h12 := (Bool.and_eq_true _ _ ▸ hcicond).1
  have h3 := (Bool.and_eq_true _ _ ▸ hcicond).2
  have h2 := (Bool.and_eq_true _ _ ▸ h12).2
  refine ⟨c, hcu, hcm, ci, hcidb, hciid, ?_, ?_⟩
  · simpa using h3
  · rw [← List.elem_iff]
    exact h2

theorem mem_resultsA (db : SearchDb) (q me supId : String) (p : ParentOption)
    (hp : p ∈ resultsAOf db q me supId) :
    ∃ u ∈ db.users, p = toParentOption u ∧
      (managerIdsOf db q me supId).contains u.id = true := by
  unfold resultsAOf at hp
  rcases mem_of_foldl_pushUnique _ _ _ hp with h | h
  · cases h
  · rcases List.mem_map.mp h with ⟨u, hu, rfl⟩
    unfold parentsOfChildrenOf at hu
    by_cases hm : (managerIdsOf db q me supId).isEmpty = true
    · rw [if_pos hm] at hu
      cases hu
    · rw [if_neg hm] at hu
      rcases List.mem_filter.mp hu with ⟨hud, hcont⟩
      exact ⟨u, hud, rfl, hcont⟩

/-- Claim C9: `performSearch` never surfaces a recipient outside the
actor's accessible facility set: every returned recipient is the manager
of some user who holds an active relationship record in an accessible
facility.  Moreover a name-matched child with such a record yields the
child's responsible guardian among the results. -/
theorem performSearch_scope (db : SearchDb) (q me supId : String) :
    (∀ p ∈ performSearch db q me supId,
      ∃ c ∈ db.users, c.manager_id = some p.id ∧
        ∃ ci ∈ db.children_info, ci.user_id = c.id ∧ ci.is_deleted = false ∧
          ci.facility_id ∈ accessibleFacilities db me supId) ∧
    (∀ (c g : UserRow) (ci : ChildInfoRow),
      c ∈ userMatchesOf db q → c.user_type = "child" →
      ci ∈ db.children_info → ci.user_id = c.id → ci.is_deleted = false →
      ci.facility_id ∈ accessibleFacilities db me supId →
      c.manager_id = some g.id → g ∈ db.users →
      g.id ∈ (performSearch db q me supId).map (fun p => p.id)) := by
  constructor
  · intro p hp
    unfold performSearch at hp
    by_cases hfac : (accessibleFacilities db me supId).isEmpty = true
    · rw [if_pos hfac] at hp
      cases hp
    · rw [if_neg hfac] at hp
      unfold sortByName at hp
      rw [(List.perm_insertionSort _ _).mem_iff] at hp
      have horigin : (∃ u ∈ db.users, p = toParentOption u ∧
            (managerIdsOf db q me supId).contains u.id = true) ∨
          (∃ u : UserRow, p = toParentOption u ∧
            (validParentIdsOf db q me supId).contains u.id = true) := by
        unfold combinedResultsOf at hp
        by_cases h1 : ((parentMatchesOf db q).map (fun p => p.id)).isEmpty = true
        · rw [if_pos h1] at hp
          exact Or.inl (mem_resultsA db q me supId p hp)
        · rw [if_neg h1] at hp
          by_cases h2 : ((managedChildrenOf db q).map (fun c => c.id)).isEmpty = true
          · rw [if_pos h2] at hp
            exact Or.inl (mem_resultsA db q me supId p hp)
          · rw [if_neg h2] at hp
            rcases mem_of_foldl_pushUnique _ _ _ hp with h | h
            · exact Or.inl (mem_resultsA db q me supId p h)
            · rcases List.mem_map.mp h with ⟨u, hu, rfl⟩
              rcases List.mem_filter.mp hu with ⟨-, hcont⟩
              exact Or.inr ⟨u, rfl, hcont⟩
      rcases horigin with ⟨u, -, rfl, hcont⟩ | ⟨u, rfl, hcont⟩
      · exact scoped_manager_of_managerIds db q me supId u.id hcont
      · exact scoped_manager_of_validParentIds db q me supId u.id hcont
  · intro c g ci hcMatch hcType hcidb hciid hcidel hcifac hmgr hg
    have hfac : (accessibleFacilities db me supId).isEmpty = false := by
      rw [List.isEmpty_eq_false_iff_exists_mem]
      exact ⟨ci.facility_id, hcifac⟩
    have hcChild : c ∈ childMatchesOf db q := by
      unfold childMatchesOf
      exact List.mem_filter.mpr ⟨hcMatch, beq_iff_eq.mpr hcType⟩
    have hciF : ci ∈ db.children_info.filter (fun ci =>
        ((childMatchesOf db q).map (fun c => c.id)).contains ci.user_id
          && (accessibleFacilities db me supId).contains ci.facility_id
          && !ci.is_deleted) := by
      apply List.mem_filter.mpr
      refine ⟨hcidb, ?_⟩
      have e1 : ((childMatchesOf db q).map (fun c => c.id)).contains ci.user_id = true := by
        rw [List.elem_iff, hciid]
        exact List.mem_map.mpr ⟨c, hcChild, rfl⟩
      have e2 : (accessibleFacilities db me supId).contains ci.facility_id = true := by
        rw [List.elem_iff]
        exact hcifac
      have e3 : (!ci.is_deleted) = true := by
        rw [hcidel]
        rfl
      rw [e1, e2, e3]
      rfl
    have hvalidc : (validChildIdsOf db q me supId).contains c.id = true := by
      rw [List.elem_iff]
      unfold validChildIdsOf
      exact List.mem_map.mpr ⟨ci, hciF, hciid⟩
    have hgid : (managerIdsOf db q me supId).contains g.id = true := by
      rw [List.elem_iff]
      unfold managerIdsOf
      apply List.mem_filterMap.mpr
      refine ⟨c, ?_, hmgr⟩
      apply List.mem_filter.mpr
      refine ⟨hcChild, ?_⟩
      rw [hvalidc, hmgr]
      rfl
    have hgP : g ∈ parentsOfChildrenOf db q me supId := by
      unfold parentsOfChildrenOf
      have hne : ¬((managerIdsOf db q me supId).isEmpty = true) := by
        rw [List.isEmpty_iff]
        intro h
        rw [h] at hgid
        cases hgid
      rw [if_neg hne]
      exact List.mem_filter.mpr ⟨hg, hgid⟩
    have hidA : g.id ∈ (resultsAOf db q me supId).map (fun x => x.id) := by
      unfold resultsAOf
      exact id_mem_foldl_pushUnique _ [] (toParentOption g)
        (List.mem_map.mpr ⟨g, hgP, rfl⟩)
    have hidB : g.id ∈ (combinedResultsOf db q me supId).map (fun x => x.id) := by
      unfold combinedResultsOf
      by_cases h1 : ((parentMatchesOf db q).map (fun p => p.id)).isEmpty = true
      · rw [if_pos h1]
        exact hidA
      · rw [if_neg h1]
        by_cases h2 : ((managedChildrenOf db q).map (fun c => c.id)).isEmpty = true
        · rw [if_pos h2]
          exact hidA
        · rw [if_neg h2]
          rcases foldl_pushUnique_prefix
            (((parentMatchesOf db q).filter (fun p =>
              (validParentIdsOf db q me supId).contains p.id)).map toParentOption)
            (resultsAOf db q me supId) with ⟨suf, hsuf⟩
          rw [hsuf, List.map_append]
          exact List.mem_append_left _ hidA
    unfold performSearch
    rw [if_neg (by rw [hfac]; exact Bool.false_ne_true)]
    unfold sortByName
    exact (((List.perm_insertionSort _ (combinedResultsOf db q me supId)).map
      (fun p : ParentOption => p.id)).mem_iff).mpr hidB

/-- Witness for C9: the child "Mia", enrolled in an accessible facility,
surfaces her guardian "g1" in the results. -/
theorem performSearch_scope_witness :
    "g1" ∈ (performSearch dbFix "Mia" "A" "S").map (fun p => p.id) :=
  (performSearch_scope dbFix "Mia" "A" "S").2 miaFix gretaFix miaInfoFix
    (by decide) rfl (by decide) rfl rfl (by decide) rfl (by decide)

end Tilda
